import Mathlib

/-!
Shallow embedding of `auto-push.py`: a watchdog-driven auto-commit/auto-push
tool.  The two components modelled here are `GitManager` (the git subprocess
wrapper, in particular `commit_and_push` with its bounded push-retry loop) and
`RepositoryChangeHandler` (the filesystem-event handler that maintains the
`pending_changes` flag and the push cooldown, and decides in `should_push` /
`do_push` whether to run a commit-and-push cycle).

The version-control backend (every `run_git_command` invocation) is abstracted
as a `Backend` record of the observable outcomes of each git call: exit codes
and stripped stdout/stderr texts, with the push outcome allowed to depend on
the attempt number.  Stateful Python methods become pure state transformers;
where the spec speaks about the order of side effects (backend calls, sleeps,
state writes) the functions additionally return an explicit trace of events in
execution order.  Times (`time.time()` values) are modelled as integers (seconds).
-/

namespace AutoPush

/-- Substring containment, the semantics of Python's `x in s` on strings. -/
def strContains (hay needle : String) : Bool :=
  decide (needle.data <:+: hay.data)

/-- The kind of a filesystem change notification: the watchdog dispatches
file creation, modification and deletion to the three handler methods. -/
inductive EventKind where
  | created
  | modified
  | deleted
deriving DecidableEq, Repr

/-- A filesystem change event as seen by the handler: the reported path and
whether the event concerns a directory (plus its dispatch kind). -/
structure ChangeEvent where
  src_path : String
  is_directory : Bool
  kind : EventKind
deriving DecidableEq, Repr

/-- Retry configuration of `GitManager.__init__`: `self.max_retries` and
`self.retry_delay` (seconds). -/
structure GitManager where
  max_retries : Nat
  retry_delay : Nat
deriving DecidableEq, Repr

/-- The values `GitManager.__init__` assigns: `max_retries = 3`,
`retry_delay = 10`. -/
def GitManager.init : GitManager := ⟨3, 10⟩

/-- Abstracted version-control backend: the observable outcome of each git
subprocess call the modelled code performs.  `run_git_command` returns
`(returncode, stripped stdout, stripped stderr)`; on timeout or exception it
returns `(1, '', message)`, which is just another outcome of this shape.
The push outcome may depend on the attempt number (1-based). -/
structure Backend where
  /-- stdout of `git status --porcelain`. -/
  status_out : String
  /-- exit code of `git rev-list @{u}..HEAD`. -/
  revlist_code : Nat
  /-- stdout of `git rev-list @{u}..HEAD`. -/
  revlist_out : String
  /-- exit code of `git rev-parse --abbrev-ref HEAD`. -/
  branch_code : Nat
  /-- stdout of `git rev-parse --abbrev-ref HEAD`. -/
  branch_out : String
  /-- exit code of `git add -A`. -/
  add_code : Nat
  /-- exit code of `git commit -m <msg>`. -/
  commit_code : Nat
  /-- stdout of `git commit -m <msg>`. -/
  commit_out : String
  /-- stderr of `git commit -m <msg>`. -/
  commit_err : String
  /-- exit code of `git push origin <branch>` on the n-th attempt (1-based). -/
  push_code : Nat → Nat

/-- Model of `GitManager.has_changes`: `git status --porcelain` produced non-empty
output. -/
def has_changes (b : Backend) : Bool :=
  b.status_out.length > 0

/-- Model of `GitManager.has_unpushed_commits`: `git rev-list @{u}..HEAD` produced
non-empty output.  The exit code of the call is ignored by the source. -/
def has_unpushed_commits (b : Backend) : Bool :=
  b.revlist_out.length > 0

/-- Model of `GitManager.get_current_branch`: the `rev-parse` output on success,
the fallback `"main"` otherwise. -/
def get_current_branch (b : Backend) : String :=
  if b.branch_code = 0 then b.branch_out else "main"

/-- Events of a `commit_and_push` run, in execution order: the branch query,
the stage call, the commit call, each push attempt (1-based), and each
`time.sleep(retry_delay)` pause. -/
inductive GitEvent where
  | branch_query
  | add_all
  | commit
  | push_call (attempt : Nat)
  | sleep (seconds : Nat)
deriving DecidableEq, Repr

/-- How a `commit_and_push` run ended, distinguishing the log line the source
emits: stage error, the benign `nothing to commit` warning, other commit
errors, a successful push, or retry exhaustion. -/
inductive CommitPushOutcome where
  | stage_failed
  | nothing_to_commit
  | commit_failed
  | pushed
  | push_exhausted
deriving DecidableEq, Repr

/-- The push-retry `for` loop of `commit_and_push`
(`for attempt in range(1, max_retries + 1)`), begun at `attempt` with
`remaining` iterations left: returns whether some attempt succeeded, and the
trace of push attempts and sleeps.  The source sleeps `retry_delay` seconds
after a failed attempt only when `attempt < max_retries`, i.e. when further
iterations remain. -/
def push_retry_loop (pushc : Nat → Nat) (retry_delay : Nat) (attempt : Nat) :
    Nat → Bool × List GitEvent
  | 0 => (false, [])
  | remaining + 1 =>
    if pushc attempt = 0 then
      (true, [.push_call attempt])
    else if remaining = 0 then
      (false, [.push_call attempt])
    else
      let rest := push_retry_loop pushc retry_delay (attempt + 1) remaining
      (rest.1, .push_call attempt :: .sleep retry_delay :: rest.2)

/-- Model of `GitManager.commit_and_push`: query the branch, stage everything (stop on
failure), commit (a nonzero exit whose stdout or stderr contains
`nothing to commit` is the benign no-op warning; any other nonzero exit is a
commit error), then push with the bounded retry loop.  Returns the boolean
result of the Python method, the outcome classification, and the event
trace. -/
def commit_and_push (gm : GitManager) (b : Backend) :
    Bool × CommitPushOutcome × List GitEvent :=
  if b.add_code ≠ 0 then
    (false, .stage_failed, [.branch_query, .add_all])
  else if b.commit_code ≠ 0 then
    if strContains b.commit_err "nothing to commit" ||
        strContains b.commit_out "nothing to commit" then
      (false, .nothing_to_commit, [.branch_query, .add_all, .commit])
    else
      (false, .commit_failed, [.branch_query, .add_all, .commit])
  else
    let r := push_retry_loop b.push_code gm.retry_delay 1 gm.max_retries
    (r.1, if r.1 then .pushed else .push_exhausted,
      [.branch_query, .add_all, .commit] ++ r.2)

/-- Mutable state of `RepositoryChangeHandler`: `last_push_time`,
`push_cooldown` (set to 10 seconds in `__init__` and never written again),
and the `pending_changes` flag. -/
structure RepositoryChangeHandler where
  last_push_time : ℤ
  push_cooldown : ℤ
  pending_changes : Bool
deriving DecidableEq, Repr

/-- Values of `RepositoryChangeHandler.__init__`: `last_push_time = 0`,
`push_cooldown = 10`, `pending_changes = False`. -/
def RepositoryChangeHandler.init : RepositoryChangeHandler := ⟨0, 10, false⟩

/-- The path filter shared by the three event handlers:
`any(x in event.src_path for x in ['.git', '.logs', '.auto-push.log'])`. -/
def is_ignored_path (p : String) : Bool :=
  strContains p ".git" || strContains p ".logs" || strContains p ".auto-push.log"

/-- Common body of `on_modified` / `on_created` / `on_deleted`: directory
events and excluded paths are dropped; every other event sets
`pending_changes`. -/
def handle_event (e : ChangeEvent) (h : RepositoryChangeHandler) :
    RepositoryChangeHandler :=
  if e.is_directory then h
  else if is_ignored_path e.src_path then h
  else { h with pending_changes := true }

/-- Model of `RepositoryChangeHandler.on_modified`. -/
def on_modified (e : ChangeEvent) (h : RepositoryChangeHandler) :
    RepositoryChangeHandler :=
  handle_event e h

/-- Model of `RepositoryChangeHandler.on_created`. -/
def on_created (e : ChangeEvent) (h : RepositoryChangeHandler) :
    RepositoryChangeHandler :=
  handle_event e h

/-- Model of `RepositoryChangeHandler.on_deleted`. -/
def on_deleted (e : ChangeEvent) (h : RepositoryChangeHandler) :
    RepositoryChangeHandler :=
  handle_event e h

/-- Dispatch of a change event to the handler method matching its kind (the
spec's `record`). -/
def record (e : ChangeEvent) (h : RepositoryChangeHandler) :
    RepositoryChangeHandler :=
  match e.kind with
  | .created => on_created e h
  | .modified => on_modified e h
  | .deleted => on_deleted e h

/-- Actions of the orchestrator, in execution order: the two backend queries
`should_push` may issue, the two state writes of `do_push`, and the git calls
of `commit_and_push`. -/
inductive Action where
  | query_status
  | query_unpushed
  | set_last_push_time (t : ℤ)
  | clear_pending
  | git_call (e : GitEvent)
deriving DecidableEq, Repr

/-- Model of `RepositoryChangeHandler.should_push` at current time `now`: false when
no changes are pending; false within the cooldown window; otherwise query the
backend (status first; the unpushed-commit query runs only when the status
query found nothing, mirroring Python's short-circuit `and`), clearing
`pending_changes` and answering false when both queries come back empty.
Returns the decision, the updated state, and the backend queries issued. -/
def should_push (b : Backend) (now : ℤ) (h : RepositoryChangeHandler) :
    Bool × RepositoryChangeHandler × List Action :=
  if !h.pending_changes then
    (false, h, [])
  else if now - h.last_push_time < h.push_cooldown then
    (false, h, [])
  else if !has_changes b then
    if !has_unpushed_commits b then
      (false, { h with pending_changes := false }, [.query_status, .query_unpushed])
    else
      (true, h, [.query_status, .query_unpushed])
  else
    (true, h, [.query_status])

/-- Model of `RepositoryChangeHandler.do_push` at current time `now`: when
`should_push` answers true, record `last_push_time = now`, clear
`pending_changes`, and run `commit_and_push`; otherwise keep whatever state
`should_push` left.  Returns the final state, the full action trace, and the
commit-and-push result when one ran. -/
def do_push (gm : GitManager) (b : Backend) (now : ℤ)
    (h : RepositoryChangeHandler) :
    RepositoryChangeHandler × List Action × Option (Bool × CommitPushOutcome) :=
  let s := should_push b now h
  if s.1 then
    let r := commit_and_push gm b
    ({ s.2.1 with last_push_time := now, pending_changes := false },
      s.2.2 ++ .set_last_push_time now :: .clear_pending :: r.2.2.map .git_call,
      some (r.1, r.2.1))
  else
    (s.2.1, s.2.2, none)

/-- The trace the push-retry loop produces when every attempt fails, starting
at attempt `a` with `r` iterations left: attempts alternating with
`retry_delay`-second sleeps, ending on the last attempt with no trailing
sleep. -/
def all_fail_trace (retry_delay a : Nat) : Nat → List GitEvent
  | 0 => []
  | 1 => [.push_call a]
  | n + 2 => .push_call a :: .sleep retry_delay :: all_fail_trace retry_delay (a + 1) (n + 1)

/-- Number of push attempts in a trace. -/
def count_push_calls (tr : List GitEvent) : Nat :=
  tr.countP fun e => match e with | .push_call _ => true | _ => false

/-- Number of sleep pauses in a trace. -/
def count_sleeps (tr : List GitEvent) : Nat :=
  tr.countP fun e => match e with | .sleep _ => true | _ => false

/-- A backend whose repository is fully clean and pushed: empty status, empty
`rev-list` output, all calls succeeding. -/
def b_quiet : Backend := ⟨"", 0, "", 0, "main", 0, 0, "", "", fun _ => 0⟩

/-- A backend with working-tree changes whose push always fails. -/
def b_allfail : Backend := ⟨"M f", 0, "", 0, "main", 0, 0, "", "", fun _ => 1⟩

/-! ## Claims -/

/-- C1: if `pending_changes` is true and the cooldown has elapsed, and the
backend reports no working-tree changes and no unpushed commits, then
`should_push` returns false and clears `pending_changes` (false-positive
suppression). -/
theorem c1_false_positive_suppression (b : Backend) (now : ℤ)
    (h : RepositoryChangeHandler)
    (hp : h.pending_changes = true)
    (hcool : h.push_cooldown ≤ now - h.last_push_time)
    (hch : has_changes b = false) (hun : has_unpushed_commits b = false) :
    should_push b now h =
      (false, { h with pending_changes := false },
        [.query_status, .query_unpushed]) := by
  simp [should_push, hp, hch, hun, not_lt.mpr hcool]

/-- Witness for C1: a pending state past the cooldown against a clean, fully
pushed backend. -/
theorem c1_false_positive_suppression_witness :
    should_push b_quiet 20 ⟨0, 10, true⟩ =
      (false, ⟨0, 10, false⟩, [.query_status, .query_unpushed]) :=
  c1_false_positive_suppression b_quiet 20 ⟨0, 10, true⟩ rfl (by decide) rfl rfl

/-- C2 as stated fails on the code: with `pending_changes = true`, the
cooldown long elapsed and a clean, fully pushed backend, a `should_push` call
with no new events and no cooldown boundary crossed (time does not move at
all) changes `TrackerState` — its suppression branch clears
`pending_changes` — even though every call returns the same answer. -/
theorem c2_counterexample :
    (should_push b_quiet 20 ⟨0, 10, true⟩).2.1 ≠ ⟨0, 10, true⟩ ∧
    (should_push b_quiet 20 ⟨0, 10, true⟩).1 = false ∧
    (should_push b_quiet 20 (should_push b_quiet 20 ⟨0, 10, true⟩).2.1).1 =
      false := by
  decide

/-- C2 amended: with no new events recorded and no cooldown boundary crossed
between the calls, repeated `should_push` calls all return the same boolean
answer, and no call after the first changes `TrackerState` (the first call may
clear `pending_changes` in the suppression branch). -/
theorem c2_amended_idempotence (b : Backend) (now1 now2 : ℤ)
    (h : RepositoryChangeHandler)
    (hcool : now1 - h.last_push_time < h.push_cooldown ↔
      now2 - h.last_push_time < h.push_cooldown) :
    (should_push b now2 (should_push b now1 h).2.1).1 =
      (should_push b now1 h).1 ∧
    (should_push b now2 (should_push b now1 h).2.1).2.1 =
      (should_push b now1 h).2.1 := by
  cases hp : h.pending_changes with
  | false => simp [should_push, hp]
  | true =>
    by_cases hc1 : now1 - h.last_push_time < h.push_cooldown
    · have hc2 := hcool.mp hc1
      simp [should_push, hp, hc1, hc2]
    · have hc2 : ¬(now2 - h.last_push_time < h.push_cooldown) := fun hx =>
        hc1 (hcool.mpr hx)
      cases hch : has_changes b with
      | true => simp [should_push, hp, hc1, hc2, hch]
      | false =>
        cases hun : has_unpushed_commits b with
        | true => simp [should_push, hp, hc1, hc2, hch, hun]
        | false => simp [should_push, hp, hc1, hc2, hch, hun]

/-- Witness for the amended C2: two calls at the same instant against the
clean backend. -/
theorem c2_amended_idempotence_witness :
    (should_push b_quiet 20 (should_push b_quiet 20 ⟨0, 10, true⟩).2.1).1 =
      (should_push b_quiet 20 ⟨0, 10, true⟩).1 ∧
    (should_push b_quiet 20 (should_push b_quiet 20 ⟨0, 10, true⟩).2.1).2.1 =
      (should_push b_quiet 20 ⟨0, 10, true⟩).2.1 :=
  c2_amended_idempotence b_quiet 20 20 ⟨0, 10, true⟩ Iff.rfl

/-- C7: within the cooldown window (`now < last_push_time + push_cooldown`),
`should_push` returns false, leaves the state unchanged, and issues no
backend query, regardless of `pending_changes`. -/
theorem c7_cooldown_gate (b : Backend) (now : ℤ) (h : RepositoryChangeHandler)
    (hcool : now < h.last_push_time + h.push_cooldown) :
    should_push b now h = (false, h, []) := by
  have hlt : now - h.last_push_time < h.push_cooldown := by linarith
  cases hp : h.pending_changes with
  | false => simp [should_push, hp]
  | true => simp [should_push, hp, hlt]

/-- Witness for C7: a call five seconds after a push with a ten-second
cooldown, with changes pending. -/
theorem c7_cooldown_gate_witness :
    should_push b_allfail 5 ⟨0, 10, true⟩ = (false, ⟨0, 10, true⟩, []) :=
  c7_cooldown_gate b_allfail 5 ⟨0, 10, true⟩ (by decide)

/-- When every push attempt fails, the retry loop reports failure and its
trace is exactly the alternating attempt/sleep trace. -/
theorem push_retry_loop_all_fail (pushc : Nat → Nat) (d : Nat)
    (hf : ∀ n, pushc n ≠ 0) :
    ∀ r a, push_retry_loop pushc d a r = (false, all_fail_trace d a r) := by
  intro r
  induction r with
  | zero => intro a; rfl
  | succ n ih =>
    intro a
    cases n with
    | zero => simp [push_retry_loop, all_fail_trace, hf a]
    | succ m =>
      have h1 := ih (a + 1)
      show (if pushc a = 0 then (true, [GitEvent.push_call a])
        else if m + 1 = 0 then (false, [GitEvent.push_call a])
        else ((push_retry_loop pushc d (a + 1) (m + 1)).1,
          .push_call a :: .sleep d ::
            (push_retry_loop pushc d (a + 1) (m + 1)).2)) =
        (false, all_fail_trace d a (m + 1 + 1))
      rw [if_neg (hf a), if_neg (Nat.succ_ne_zero m), h1]
      rfl

/-- The all-fail trace contains exactly one push attempt per iteration. -/
theorem count_push_calls_all_fail (d : Nat) :
    ∀ r a, count_push_calls (all_fail_trace d a r) = r := by
  intro r
  induction r with
  | zero => intro a; rfl
  | succ n ih =>
    intro a
    cases n with
    | zero => rfl
    | succ m =>
      have := ih (a + 1)
      simp only [count_push_calls] at this
      simp [all_fail_trace, count_push_calls, List.countP_cons, this]

/-- The all-fail trace contains one sleep fewer than it has push attempts. -/
theorem count_sleeps_all_fail (d : Nat) :
    ∀ r a, count_sleeps (all_fail_trace d a r) = r - 1 := by
  intro r
  induction r with
  | zero => intro a; rfl
  | succ n ih =>
    intro a
    cases n with
    | zero => rfl
    | succ m =>
      have := ih (a + 1)
      simp only [count_sleeps] at this
      simp [all_fail_trace, count_sleeps, List.countP_cons, this]

/-- The all-fail trace splits as a prefix followed by the final push
attempt. -/
theorem all_fail_trace_concat (d : Nat) :
    ∀ r a, ∃ pre, all_fail_trace d a (r + 1) =
      pre ++ [.push_call (a + r)] := by
  intro r
  induction r with
  | zero => intro a; exact ⟨[], rfl⟩
  | succ m ih =>
    intro a
    obtain ⟨pre, hpre⟩ := ih (a + 1)
    refine ⟨.push_call a :: .sleep d :: pre, ?_⟩
    show GitEvent.push_call a :: GitEvent.sleep d ::
      all_fail_trace d (a + 1) (m + 1) = _
    rw [hpre]
    simp [Nat.add_assoc, Nat.add_comm, Nat.add_left_comm]

/-- The all-fail trace ends with the last push attempt: no sleep follows
it. -/
theorem all_fail_trace_getLast (d r a : Nat) :
    (all_fail_trace d a (r + 1)).getLast? = some (.push_call (a + r)) := by
  obtain ⟨pre, hpre⟩ := all_fail_trace_concat d r a
  rw [hpre, List.getLast?_concat]

/-- C3: against a backend whose push always fails (after a successful stage
and commit), `commit_and_push` reports failure, its trace is the alternating
attempt/sleep trace, it invokes push exactly `max_retries` times with
`max_retries - 1` sleeps of `retry_delay` seconds between consecutive
attempts, and the trace ends on the last push attempt (no sleep after it). -/
theorem c3_push_retry_exhaustion (gm : GitManager) (b : Backend)
    (hf : ∀ n, b.push_code n ≠ 0) (ha : b.add_code = 0) (hc : b.commit_code = 0)
    (hm : 1 ≤ gm.max_retries) :
    commit_and_push gm b =
      (false, .push_exhausted,
        [.branch_query, .add_all, .commit] ++
          all_fail_trace gm.retry_delay 1 gm.max_retries) ∧
    count_push_calls (commit_and_push gm b).2.2 = gm.max_retries ∧
    count_sleeps (commit_and_push gm b).2.2 = gm.max_retries - 1 ∧
    (commit_and_push gm b).2.2.getLast? =
      some (.push_call gm.max_retries) := by
  obtain ⟨r, hr⟩ : ∃ r, gm.max_retries = r + 1 :=
    ⟨gm.max_retries - 1, by omega⟩
  have hloop := push_retry_loop_all_fail b.push_code gm.retry_delay hf
    gm.max_retries 1
  have hcp : commit_and_push gm b =
      (false, .push_exhausted,
        [.branch_query, .add_all, .commit] ++
          all_fail_trace gm.retry_delay 1 gm.max_retries) := by
    simp [commit_and_push, ha, hc, hloop]
  refine ⟨hcp, ?_, ?_, ?_⟩
  · rw [hcp]
    have hcnt := count_push_calls_all_fail gm.retry_delay gm.max_retries 1
    simp only [count_push_calls, List.countP_append] at hcnt ⊢
    simp [List.countP_cons, hcnt]
  · rw [hcp]
    have hcnt := count_sleeps_all_fail gm.retry_delay gm.max_retries 1
    simp only [count_sleeps, List.countP_append] at hcnt ⊢
    simp [List.countP_cons, hcnt]
  · rw [hcp, hr]
    obtain ⟨pre, hpre⟩ := all_fail_trace_concat gm.retry_delay r 1
    rw [hpre, ← List.append_assoc, List.getLast?_concat]
    simp [Nat.add_comm]

/-- Witness for C3: the default retry configuration against a backend with
working-tree changes whose push always fails. -/
theorem c3_push_retry_exhaustion_witness :
    commit_and_push GitManager.init b_allfail =
      (false, .push_exhausted,
        [.branch_query, .add_all, .commit] ++ all_fail_trace 10 1 3) ∧
    count_push_calls (commit_and_push GitManager.init b_allfail).2.2 = 3 ∧
    count_sleeps (commit_and_push GitManager.init b_allfail).2.2 = 2 ∧
    (commit_and_push GitManager.init b_allfail).2.2.getLast? =
      some (.push_call 3) :=
  c3_push_retry_exhaustion GitManager.init b_allfail
    (fun _ => Nat.one_ne_zero) rfl rfl (by decide)

/-- C4: with `max_retries = 3`, a backend whose push fails on the first two
attempts and succeeds on the third (after a successful stage and commit)
makes `commit_and_push` report success, with push invoked exactly 3 times. -/
theorem c4_push_retry_success (gm : GitManager) (b : Backend)
    (h1 : b.push_code 1 ≠ 0) (h2 : b.push_code 2 ≠ 0) (h3 : b.push_code 3 = 0)
    (ha : b.add_code = 0) (hc : b.commit_code = 0)
    (hm : gm.max_retries = 3) :
    commit_and_push gm b =
      (true, .pushed,
        [.branch_query, .add_all, .commit, .push_call 1,
          .sleep gm.retry_delay, .push_call 2, .sleep gm.retry_delay,
          .push_call 3]) ∧
    count_push_calls (commit_and_push gm b).2.2 = 3 := by
  have hloop : push_retry_loop b.push_code gm.retry_delay 1 3 =
      (true, [.push_call 1, .sleep gm.retry_delay, .push_call 2,
        .sleep gm.retry_delay, .push_call 3]) := by
    simp [push_retry_loop, h1, h2, h3]
  have hcp : commit_and_push gm b =
      (true, .pushed,
        [.branch_query, .add_all, .commit, .push_call 1,
          .sleep gm.retry_delay, .push_call 2, .sleep gm.retry_delay,
          .push_call 3]) := by
    simp [commit_and_push, ha, hc, hm, hloop]
  refine ⟨hcp, ?_⟩
  rw [hcp]
  simp [count_push_calls, List.countP_cons]

/-- A backend with working-tree changes whose push fails twice and then
succeeds on the third attempt. -/
def b_flaky : Backend :=
  ⟨"M f", 0, "", 0, "main", 0, 0, "", "", fun n => if n < 3 then 1 else 0⟩

/-- Witness for C4: the default retry configuration against the
fails-twice-then-succeeds backend. -/
theorem c4_push_retry_success_witness :
    commit_and_push GitManager.init b_flaky =
      (true, .pushed,
        [.branch_query, .add_all, .commit, .push_call 1, .sleep 10,
          .push_call 2, .sleep 10, .push_call 3]) ∧
    count_push_calls (commit_and_push GitManager.init b_flaky).2.2 = 3 :=
  c4_push_retry_success GitManager.init b_flaky (by decide) (by decide)
    (by decide) rfl rfl rfl

/-- A backend whose commit succeeds (exit code 0) while its stdout still
carries a `nothing to commit` phrase, and whose push succeeds. -/
def b_commit_ok_noop : Backend :=
  ⟨"M f", 0, "", 0, "main", 0, 0, "nothing to commit, working tree clean", "",
    fun _ => 0⟩

/-- C5 as stated fails on the code: the source treats `nothing to commit` as
a benign no-op only when the commit exit code is nonzero.  Against a backend
whose commit exits with code 0 while its output says `nothing to commit`,
`commit_and_push` still invokes push and does not take the benign-no-op
path. -/
theorem c5_counterexample :
    strContains b_commit_ok_noop.commit_out "nothing to commit" = true ∧
    0 < count_push_calls (commit_and_push GitManager.init b_commit_ok_noop).2.2 ∧
    (commit_and_push GitManager.init b_commit_ok_noop).2.1 ≠
      CommitPushOutcome.nothing_to_commit := by
  decide

/-- C5 amended: for every backend whose commit call fails (nonzero exit) with
a `nothing to commit` phrase in its stderr or stdout, `commit_and_push` stops
without ever invoking push, and the outcome is the benign no-op (the source
logs a warning, not an error). -/
theorem c5_amended_commit_noop (gm : GitManager) (b : Backend)
    (ha : b.add_code = 0) (hc : b.commit_code ≠ 0)
    (hmsg : strContains b.commit_err "nothing to commit" = true ∨
      strContains b.commit_out "nothing to commit" = true) :
    commit_and_push gm b =
      (false, .nothing_to_commit, [.branch_query, .add_all, .commit]) ∧
    count_push_calls (commit_and_push gm b).2.2 = 0 := by
  have hcp : commit_and_push gm b =
      (false, .nothing_to_commit, [.branch_query, .add_all, .commit]) := by
    rcases hmsg with hm | hm <;> simp [commit_and_push, ha, hc, hm]
  exact ⟨hcp, by rw [hcp]; rfl⟩

/-- A backend whose commit fails with the `nothing to commit` message on
stderr. -/
def b_nothing : Backend :=
  ⟨"", 0, "", 0, "main", 0, 1, "", "nothing to commit", fun _ => 0⟩

/-- Witness for the amended C5. -/
theorem c5_amended_commit_noop_witness :
    commit_and_push GitManager.init b_nothing =
      (false, .nothing_to_commit, [.branch_query, .add_all, .commit]) ∧
    count_push_calls (commit_and_push GitManager.init b_nothing).2.2 = 0 :=
  c5_amended_commit_noop GitManager.init b_nothing rfl Nat.one_ne_zero
    (Or.inl (by decide))

/-- When `should_push` answers true it has not modified the handler state. -/
theorem should_push_true_state (b : Backend) (now : ℤ)
    (h : RepositoryChangeHandler)
    (hsp : (should_push b now h).1 = true) :
    (should_push b now h).2.1 = h := by
  cases hp : h.pending_changes with
  | false => simp [should_push, hp] at hsp
  | true =>
    by_cases hcool : now - h.last_push_time < h.push_cooldown
    · simp [should_push, hp, hcool] at hsp
    · cases hch : has_changes b with
      | true => simp [should_push, hp, hcool, hch]
      | false =>
        cases hun : has_unpushed_commits b with
        | true => simp [should_push, hp, hcool, hch, hun]
        | false => simp [should_push, hp, hcool, hch, hun] at hsp

/-- Every action `should_push` traces is one of the two backend queries. -/
theorem should_push_trace_queries (b : Backend) (now : ℤ)
    (h : RepositoryChangeHandler) :
    ∀ x ∈ (should_push b now h).2.2,
      x = Action.query_status ∨ x = Action.query_unpushed := by
  intro x hx
  cases hp : h.pending_changes with
  | false => simp [should_push, hp] at hx
  | true =>
    by_cases hcool : now - h.last_push_time < h.push_cooldown
    · simp [should_push, hp, hcool] at hx
    · cases hch : has_changes b with
      | true =>
        simp [should_push, hp, hcool, hch] at hx
        simp [hx]
      | false =>
        cases hun : has_unpushed_commits b with
        | true =>
          simp [should_push, hp, hcool, hch, hun] at hx
          rcases hx with h1 | h1 <;> simp [h1]
        | false =>
          simp [should_push, hp, hcool, hch, hun] at hx
          rcases hx with h1 | h1 <;> simp [h1]

/-- C6: whenever `should_push` answers true, `do_push` sets
`last_push_time = now` and clears `pending_changes`; in the action trace both
state writes come after only backend queries and before every git call of
`commit_and_push`, and the resulting state is the same whatever the staging,
commit and push outcomes are. -/
theorem c6_claim_before_backend (gm : GitManager) (b : Backend) (now : ℤ)
    (h : RepositoryChangeHandler)
    (hsp : (should_push b now h).1 = true) :
    (do_push gm b now h).1 =
      { h with last_push_time := now, pending_changes := false } ∧
    (do_push gm b now h).2.1 =
      (should_push b now h).2.2 ++ .set_last_push_time now :: .clear_pending ::
        (commit_and_push gm b).2.2.map .git_call ∧
    ∀ x ∈ (should_push b now h).2.2, ∀ e, x ≠ Action.git_call e := by
  have hstate := should_push_true_state b now h hsp
  refine ⟨?_, ?_, ?_⟩
  · simp [do_push, hsp, hstate]
  · simp [do_push, hsp]
  · intro x hx e
    rcases should_push_trace_queries b now h x hx with h1 | h1 <;> simp [h1]

/-- Witness for C6: a pending state past the cooldown against a backend with
working-tree changes whose push fails every time. -/
theorem c6_claim_before_backend_witness :
    (do_push GitManager.init b_allfail 20 ⟨0, 10, true⟩).1 = ⟨20, 10, false⟩ ∧
    (do_push GitManager.init b_allfail 20 ⟨0, 10, true⟩).2.1 =
      (should_push b_allfail 20 ⟨0, 10, true⟩).2.2 ++
        .set_last_push_time 20 :: .clear_pending ::
        (commit_and_push GitManager.init b_allfail).2.2.map .git_call ∧
    ∀ x ∈ (should_push b_allfail 20 ⟨0, 10, true⟩).2.2,
      ∀ e, x ≠ Action.git_call e :=
  c6_claim_before_backend GitManager.init b_allfail 20 ⟨0, 10, true⟩
    (by decide)

/-- Event dispatch lands in the shared handler body whatever the kind. -/
theorem record_eq_handle_event (e : ChangeEvent)
    (h : RepositoryChangeHandler) : record e h = handle_event e h := by
  cases hk : e.kind <;>
    simp [record, hk, on_created, on_modified, on_deleted]

/-- C8: an accepted (non-directory, non-ignored) event sets
`pending_changes`; no `record` call ever clears it; `should_push` clears it
only in the false-positive suppression branch (cooldown elapsed, backend
clean and fully pushed); and a `do_push` tick clears it only when the push
decision was true (the claiming step) or in that same suppression branch. -/
theorem c8_pending_set_until_cleared :
    (∀ (e : ChangeEvent) (h : RepositoryChangeHandler),
      e.is_directory = false → is_ignored_path e.src_path = false →
      (record e h).pending_changes = true) ∧
    (∀ (e : ChangeEvent) (h : RepositoryChangeHandler),
      h.pending_changes = true → (record e h).pending_changes = true) ∧
    (∀ (b : Backend) (now : ℤ) (h : RepositoryChangeHandler),
      h.pending_changes = true →
      (should_push b now h).2.1.pending_changes = false →
      h.push_cooldown ≤ now - h.last_push_time ∧
        has_changes b = false ∧ has_unpushed_commits b = false) ∧
    (∀ (gm : GitManager) (b : Backend) (now : ℤ)
      (h : RepositoryChangeHandler),
      h.pending_changes = true →
      (do_push gm b now h).1.pending_changes = false →
      ((should_push b now h).1 = true ∨
        (h.push_cooldown ≤ now - h.last_push_time ∧
          has_changes b = false ∧ has_unpushed_commits b = false))) := by
  have key : ∀ (b : Backend) (now : ℤ) (h : RepositoryChangeHandler),
      h.pending_changes = true →
      (should_push b now h).2.1.pending_changes = false →
      h.push_cooldown ≤ now - h.last_push_time ∧
        has_changes b = false ∧ has_unpushed_commits b = false := by
    intro b now h hp hclr
    by_cases hcool : now - h.last_push_time < h.push_cooldown
    · simp [should_push, hp, hcool] at hclr
    · cases hch : has_changes b with
      | true => simp [should_push, hp, hcool, hch] at hclr
      | false =>
        cases hun : has_unpushed_commits b with
        | true => simp [should_push, hp, hcool, hch, hun] at hclr
        | false => exact ⟨not_lt.mp hcool, rfl, rfl⟩
  refine ⟨?_, ?_, key, ?_⟩
  · intro e h hd hi
    rw [record_eq_handle_event]
    simp [handle_event, hd, hi]
  · intro e h hp
    rw [record_eq_handle_event]
    unfold handle_event
    split
    · exact hp
    · split
      · exact hp
      · rfl
  · intro gm b now h hp hclr
    cases hd : (should_push b now h).1 with
    | true => exact Or.inl rfl
    | false =>
      refine Or.inr (key b now h hp ?_)
      have hstep : (do_push gm b now h).1 = (should_push b now h).2.1 := by
        simp [do_push, hd]
      rwa [hstep] at hclr

/-- C9: a sequence made only of directory events and excluded-path events,
fed through `record`, leaves `pending_changes` false. -/
theorem c9_ignored_sequence (evs : List ChangeEvent)
    (hig : ∀ e ∈ evs, e.is_directory = true ∨ is_ignored_path e.src_path = true)
    (h : RepositoryChangeHandler) (h0 : h.pending_changes = false) :
    (evs.foldl (fun s e => record e s) h).pending_changes = false := by
  induction evs generalizing h with
  | nil => simpa using h0
  | cons e rest ih =>
    have hrec : record e h = h := by
      rw [record_eq_handle_event]
      rcases hig e (List.mem_cons_self e rest) with hd | hi
      · simp [handle_event, hd]
      · cases hdir : e.is_directory with
        | true => simp [handle_event, hdir]
        | false => simp [handle_event, hdir, hi]
    rw [List.foldl_cons, hrec]
    exact ih (fun e' he' => hig e' (List.mem_cons_of_mem _ he')) h h0

/-- Witness for C9: a git-internal file event, a directory event, and a log
file event, starting from the initial handler state. -/
theorem c9_ignored_sequence_witness :
    (([⟨"/repo/.git/index", false, .modified⟩,
       ⟨"/repo/pages", true, .created⟩,
       ⟨"/repo/.logs/auto-push.log", false, .deleted⟩] :
        List ChangeEvent).foldl (fun s e => record e s)
      RepositoryChangeHandler.init).pending_changes = false :=
  c9_ignored_sequence _ (by decide) RepositoryChangeHandler.init rfl

/-- Nonempty strings are exactly those of positive length. -/
theorem string_length_pos_iff (s : String) : 0 < s.length ↔ s ≠ "" := by
  constructor
  · intro hl he
    rw [he] at hl
    exact absurd hl (by decide)
  · intro hne
    obtain ⟨l⟩ := s
    have hl : l ≠ [] := fun hx => hne (by rw [hx])
    simpa [String.length] using List.length_pos.mpr hl

/-- C10: `has_unpushed_commits` answers true exactly when the `rev-list`
stdout is non-empty, ignoring the call's exit status; in particular a failed
`rev-list` call (nonzero exit) with empty output yields false, so with an
empty working-tree status `should_push` clears `pending_changes` off the
failed query. -/
theorem c10_unpushed_ignores_exit_code :
    (∀ b : Backend, has_unpushed_commits b = true ↔ b.revlist_out ≠ "") ∧
    (∀ b : Backend, b.revlist_code ≠ 0 → b.revlist_out = "" →
      has_unpushed_commits b = false) ∧
    (∀ (b : Backend) (now : ℤ) (h : RepositoryChangeHandler),
      b.revlist_code ≠ 0 → b.revlist_out = "" → b.status_out = "" →
      h.pending_changes = true → h.push_cooldown ≤ now - h.last_push_time →
      should_push b now h =
        (false, { h with pending_changes := false },
          [.query_status, .query_unpushed])) := by
  have hiff : ∀ b : Backend, has_unpushed_commits b = true ↔
      b.revlist_out ≠ "" := by
    intro b
    simp only [has_unpushed_commits, decide_eq_true_eq]
    exact string_length_pos_iff b.revlist_out
  refine ⟨hiff, ?_, ?_⟩
  · intro b _ hout
    cases hu : has_unpushed_commits b with
    | false => rfl
    | true => exact absurd ((hiff b).mp hu) (by simp [hout])
  · intro b now h _ hout hst hp hcool
    have hch : has_changes b = false := by
      simp [has_changes, hst]
    have hun : has_unpushed_commits b = false := by
      simp [has_unpushed_commits, hout]
    simp [should_push, hp, hch, hun, not_lt.mpr hcool]

end AutoPush
